import Mathlib

/-!
Verification of the rstdms TDMS reader.

This file gives a shallow embedding, in Lean, of the core of the rstdms
repository (a reader for the TDMS binary file format) and proves, or
refutes, a fixed list of claims about it.  The embedding is translated
from the Rust sources:

  * `types.rs`     : the TDMS element-type catalogue and typed decoding,
  * `error.rs`     : the error type,
  * `tdms_reader.rs`: the segment scanner, the raw-data-index dispatch,
    the object-list merge and the cumulative channel-data index,
  * `segment.rs`   : per-segment typed channel-data extraction,
  * `interleaved.rs`: the interleaved de-mux reader,
  * `object_path.rs`: object-path parsing and canonicalization,
  * `lib.rs`       : the public `Channel::read_all_data` facade.

Machine integers are modelled as `Nat`/`Int` (the reader only ever grows
counters, no wrap-around is reachable in the modelled paths), byte
sources as a list of bytes with a cursor, and fallible Rust functions as
`Except`-valued Lean functions.  Rust `unimplemented!` panics are
modelled as a distinguished failure outcome.
-/

namespace Rstdms

/-- The single quote character, used by the object-path escape scheme. -/
def qc : Char := Char.ofNat 39

/-! ## Errors (`error.rs`) -/

/-- Embeds `TdmsReadError` from `error.rs`: `TdmsError` is a format
violation, `IoError` an underlying I/O failure (in this model: a short
read), `Utf8Error` a string-decoding failure. -/
inductive TdmsReadError where
  | tdmsError (msg : String)
  | ioError
  | utf8Error
deriving DecidableEq, Repr

/-- A Rust control-flow outcome that also tracks panics: the scaler
raw-data-index headers hit `unimplemented!()` in `read_object_metadata`,
which aborts rather than returning a `Result`. -/
inductive ReadFailure where
  | err (e : TdmsReadError)
  | panicked (msg : String)
deriving DecidableEq, Repr

/-- True exactly on the `TdmsError` ("format error") variant. -/
def TdmsReadError.isFormat : TdmsReadError → Bool
  | .tdmsError _ => true
  | _ => false

instance {ε α : Type} [DecidableEq ε] [DecidableEq α] : DecidableEq (Except ε α) := fun a b =>
  match a, b with
  | .error e, .error f =>
    if h : e = f then .isTrue (by rw [h]) else .isFalse (by simp [h])
  | .error _, .ok _ => .isFalse (by simp)
  | .ok _, .error _ => .isFalse (by simp)
  | .ok x, .ok y =>
    if h : x = y then .isTrue (by rw [h]) else .isFalse (by simp [h])

/-! ## Element types (`types.rs`) -/

/-- The `TdsType` enumeration from `types.rs`. -/
inductive TdsType where
  | void
  | i8
  | i16
  | i32
  | i64
  | u8
  | u16
  | u32
  | u64
  | singleFloat
  | doubleFloat
  | extendedFloat
  | singleFloatWithUnit
  | doubleFloatWithUnit
  | extendedFloatWithUnit
  | string
  | boolean
  | timeStamp
  | fixedPoint
  | complexSingleFloat
  | complexDoubleFloat
  | daqmxRawData
deriving DecidableEq, Repr

/-- Wire tags of `TdsType` (the `#[repr(u32)]` discriminants). -/
def TdsType.fromU32 (tag : Nat) : Except TdmsReadError TdsType :=
  if tag = 0 then .ok .void
  else if tag = 1 then .ok .i8
  else if tag = 2 then .ok .i16
  else if tag = 3 then .ok .i32
  else if tag = 4 then .ok .i64
  else if tag = 5 then .ok .u8
  else if tag = 6 then .ok .u16
  else if tag = 7 then .ok .u32
  else if tag = 8 then .ok .u64
  else if tag = 9 then .ok .singleFloat
  else if tag = 10 then .ok .doubleFloat
  else if tag = 11 then .ok .extendedFloat
  else if tag = 0x19 then .ok .singleFloatWithUnit
  else if tag = 0x1A then .ok .doubleFloatWithUnit
  else if tag = 0x1B then .ok .extendedFloatWithUnit
  else if tag = 0x20 then .ok .string
  else if tag = 0x21 then .ok .boolean
  else if tag = 0x44 then .ok .timeStamp
  else if tag = 0x4F then .ok .fixedPoint
  else if tag = 0x08000C then .ok .complexSingleFloat
  else if tag = 0x10000D then .ok .complexDoubleFloat
  else if tag = 0xFFFFFFFF then .ok .daqmxRawData
  else .error (.tdmsError "Invalid type id")

/-- `TdsType::size` from `types.rs`: the fixed element size in bytes. -/
def TdsType.size : TdsType → Option Nat
  | .void => some 0
  | .i8 => some 1
  | .i16 => some 2
  | .i32 => some 4
  | .i64 => some 8
  | .u8 => some 1
  | .u16 => some 2
  | .u32 => some 4
  | .u64 => some 8
  | .singleFloat => some 4
  | .doubleFloat => some 8
  | .extendedFloat => some 16
  | .singleFloatWithUnit => some 4
  | .doubleFloatWithUnit => some 8
  | .extendedFloatWithUnit => some 16
  | .string => none
  | .boolean => some 1
  | .timeStamp => some 16
  | .fixedPoint => none
  | .complexSingleFloat => some 8
  | .complexDoubleFloat => some 16
  | .daqmxRawData => none

/-- `NativeTypeId` from `types.rs`: the element kinds a typed buffer can
have. -/
inductive NativeTypeId where
  | i8
  | i16
  | i32
  | i64
  | u8
  | u16
  | u32
  | u64
  | f32
  | f64
  | timestamp
deriving DecidableEq, Repr

/-- `TdsType::native_type` from `types.rs`. -/
def TdsType.nativeType : TdsType → Option NativeTypeId
  | .void => none
  | .i8 => some .i8
  | .i16 => some .i16
  | .i32 => some .i32
  | .i64 => some .i64
  | .u8 => some .u8
  | .u16 => some .u16
  | .u32 => some .u32
  | .u64 => some .u64
  | .singleFloat => some .f32
  | .doubleFloat => some .f64
  | .extendedFloat => none
  | .singleFloatWithUnit => some .f32
  | .doubleFloatWithUnit => some .f64
  | .extendedFloatWithUnit => none
  | .string => none
  | .boolean => none
  | .timeStamp => some .timestamp
  | .fixedPoint => none
  | .complexSingleFloat => none
  | .complexDoubleFloat => none
  | .daqmxRawData => none

/-! ## Byte sources

The reader consumes a `Read + Seek` source; the repository opens files
and, in its tests, `Cursor<Vec<u8>>`.  We model the source as a finite
list of bytes with a cursor.  `read` hands out `min requested remaining`
bytes (the `Cursor` behaviour; `Ok(0)` signals end of file), and
`read_exact` fails with an I/O error when fewer bytes remain than
requested. -/

/-- A seekable in-memory byte source: the bytes and a cursor. -/
structure ByteStream where
  data : List Nat
  pos : Nat
deriving DecidableEq, Repr

/-- Bytes still available past the cursor. -/
def ByteStream.remaining (s : ByteStream) : Nat :=
  s.data.length - s.pos

/-- `Read::read` on an in-memory source: yields up to `n` bytes,
advancing the cursor; yields `[]` at end of file. -/
def ByteStream.readUpTo (s : ByteStream) (n : Nat) : List Nat × ByteStream :=
  let k := min n s.remaining
  ((s.data.drop s.pos).take k, ⟨s.data, s.pos + k⟩)

/-- `Read::read_exact`: all `n` bytes or an `IoError`. -/
def ByteStream.readExact (s : ByteStream) (n : Nat) :
    Except TdmsReadError (List Nat × ByteStream) :=
  if n ≤ s.remaining then
    .ok ((s.data.drop s.pos).take n, ⟨s.data, s.pos + n⟩)
  else
    .error .ioError

/-- Byte order of a segment, selected by the `BigEndian` ToC flag. -/
inductive ByteOrder where
  | little
  | big
deriving DecidableEq, Repr

/-- Assembles an unsigned machine word from its wire bytes in the given
byte order (the `from_le_bytes` / `from_be_bytes` reinterpretation). -/
def wordFromBytes (o : ByteOrder) (bs : List Nat) : Nat :=
  match o with
  | .little => bs.foldr (fun b acc => b + 256 * acc) 0
  | .big => bs.foldl (fun acc b => acc * 256 + b) 0

/-- `read_u32::<O>`: four wire bytes as an unsigned 32-bit value. -/
def ByteStream.readU32 (s : ByteStream) (o : ByteOrder) :
    Except TdmsReadError (Nat × ByteStream) :=
  match s.readExact 4 with
  | .error e => .error e
  | .ok (bs, s2) => .ok (wordFromBytes o bs, s2)

/-- `read_u64::<O>`: eight wire bytes as an unsigned 64-bit value. -/
def ByteStream.readU64 (s : ByteStream) (o : ByteOrder) :
    Except TdmsReadError (Nat × ByteStream) :=
  match s.readExact 8 with
  | .error e => .error e
  | .ok (bs, s2) => .ok (wordFromBytes o bs, s2)

/-- Two's-complement reading of a 64-bit word as a signed integer. -/
def toSigned64 (w : Nat) : Int :=
  if w < 2 ^ 63 then (w : Int) else (w : Int) - 2 ^ 64

/-- `read_i64::<O>`: eight wire bytes as a signed 64-bit value. -/
def ByteStream.readI64 (s : ByteStream) (o : ByteOrder) :
    Except TdmsReadError (Int × ByteStream) :=
  match s.readExact 8 with
  | .error e => .error e
  | .ok (bs, s2) => .ok (toSigned64 (wordFromBytes o bs), s2)

/-! ## Segment-tag scan (`TdmsReader::read_segment`, `tdms_reader.rs`)

The scanner first pulls 4 tag bytes through plain `Read::read` calls,
looping on partial reads; a read that returns 0 bytes makes
`read_segment` return `Ok(None)`, which `read_segments` takes as clean
end of file. -/

/-- The 4-byte tag loop of `read_segment`: `none` models the
`return Ok(None)` taken when a read yields 0 bytes; otherwise the 4
collected tag bytes and the advanced stream. -/
def readTagLoop (s : ByteStream) (acc : List Nat) : Option (List Nat × ByteStream) :=
  if 4 ≤ acc.length then some (acc, s)
  else
    match s.readUpTo (4 - acc.length) with
    | ([], _) => none
    | (b :: bs, s2) => readTagLoop s2 (acc ++ b :: bs)
termination_by 4 - acc.length
decreasing_by
  simp only [List.length_append, List.length_cons]
  omega

/-- The tag phase of `read_segment`: clean termination (`Ok(None)`,
modelled `ok none`), a fatal `TdmsError` on a tag other than
`54 44 53 6d`, or the stream positioned after the tag. -/
def readSegmentHeader (s : ByteStream) :
    Except TdmsReadError (Option ByteStream) :=
  match readTagLoop s [] with
  | none => .ok none
  | some (headerBytes, s2) =>
    if headerBytes = [0x54, 0x44, 0x53, 0x6d] then .ok (some s2)
    else .error (.tdmsError "Invalid segment header")

/-! ## Dense object-keyed maps (`object_map.rs`)

`ObjectMap<T>` is a vector of `Option<T>` indexed by the dense object
id; `set` grows it with `None` padding as needed.  Its observable
behaviour (`get` after `set`) is that of a pointwise-updated partial
function from ids, which is how we model it. -/

/-- Model of `ObjectMap<T>`: a partial map from dense object ids. -/
def ObjMap (α : Type) : Type := Nat → Option α

/-- A fresh, empty `ObjectMap`. -/
def ObjMap.empty {α : Type} : ObjMap α := fun _ => none

/-- `ObjectMap::set`: write (or overwrite) the slot of one object id. -/
def ObjMap.set {α : Type} (m : ObjMap α) (id : Nat) (v : α) : ObjMap α :=
  fun j => if j = id then some v else m j

/-- `ObjectMap::get`. -/
def ObjMap.get {α : Type} (m : ObjMap α) (id : Nat) : Option α := m id

/-! ## Raw-data indexes and segment objects (`segment.rs`) -/

/-- `RawDataIndex` from `segment.rs`: one segment's data descriptor for
one object. -/
structure RawDataIndex where
  numberOfValues : Nat
  dataType : TdsType
  dataSize : Nat
deriving DecidableEq, Repr

instance : Inhabited RawDataIndex := ⟨⟨0, .void, 0⟩⟩

/-- `SegmentObject` from `segment.rs`: an object id plus, when the
object carries data in the segment, the arena id of its raw-data index.
The arena (`id_arena::Arena<RawDataIndex>`) is modelled as a list, ids
being list positions. -/
structure SegmentObject where
  objectId : Nat
  rawDataIndex : Option Nat
deriving DecidableEq, Repr

/-- `SegmentObject::no_data`. -/
def SegmentObject.noData (objectId : Nat) : SegmentObject :=
  ⟨objectId, none⟩

/-- `SegmentObject::with_data`. -/
def SegmentObject.withData (objectId : Nat) (rawDataIndex : Nat) : SegmentObject :=
  ⟨objectId, some rawDataIndex⟩

/-- Arena lookup.  The source does `data_indexes.get(id).unwrap()` with
a comment that ids handed out by the reader are always arena-valid; the
model totalizes the lookup with a default that is never reached on
reader-constructed inputs. -/
def arenaGet (arena : List RawDataIndex) (id : Nat) : RawDataIndex :=
  arena.getD id default

/-! ## Cumulative channel-data index (`tdms_reader.rs`) -/

/-- `ChannelDataIndex` from `tdms_reader.rs`: the cumulative per-channel
value count and the frozen element type. -/
structure ChannelDataIndex where
  numberOfValues : Nat
  dataType : TdsType
deriving DecidableEq, Repr

/-- `ChannelDataIndex::from_segment_index`. -/
def ChannelDataIndex.fromSegmentIndex (index : RawDataIndex) : ChannelDataIndex :=
  ⟨index.numberOfValues, index.dataType⟩

/-- `ChannelDataIndex::update_with_segment_index`: a later segment with
data for a channel that already has an index must carry the same element
type (hard error otherwise); on success the per-segment value count is
added to the running total. -/
def ChannelDataIndex.updateWithSegmentIndex (c : ChannelDataIndex)
    (index : RawDataIndex) : Except TdmsReadError ChannelDataIndex :=
  if index.dataType ≠ c.dataType then
    .error (.tdmsError "Data type does not match existing data type")
  else
    .ok ⟨c.numberOfValues + index.numberOfValues, c.dataType⟩

/-- The `ChannelDataIndexMap` of the reader. -/
def ChannelDataIndexMap : Type := ObjMap ChannelDataIndex

/-- `TdmsReader::update_data_indexes`: walk one segment's objects; for
each data-carrying object create the channel's cumulative index on first
sight or update the existing one. -/
def updateDataIndexes (arena : List RawDataIndex) (m : ChannelDataIndexMap) :
    List SegmentObject → Except TdmsReadError ChannelDataIndexMap
  | [] => .ok m
  | segmentObj :: rest =>
    match segmentObj.rawDataIndex with
    | none => updateDataIndexes arena m rest
    | some segmentDataIndexId =>
      let segmentRawDataIndex := arenaGet arena segmentDataIndexId
      match m.get segmentObj.objectId with
      | some existingDataIndex =>
        match existingDataIndex.updateWithSegmentIndex segmentRawDataIndex with
        | .error e => .error e
        | .ok updated => updateDataIndexes arena (m.set segmentObj.objectId updated) rest
      | none =>
        updateDataIndexes arena
          (m.set segmentObj.objectId (ChannelDataIndex.fromSegmentIndex segmentRawDataIndex))
          rest

/-- The metadata pass of `open`/`read_segments` as it affects the
cumulative channel-data index: `update_data_indexes` is run on each
segment's (already resolved) object list, in file order. -/
def scanSegments (arena : List RawDataIndex) (m : ChannelDataIndexMap) :
    List (List SegmentObject) → Except TdmsReadError ChannelDataIndexMap
  | [] => .ok m
  | objs :: rest =>
    match updateDataIndexes arena m objs with
    | .error e => .error e
    | .ok m2 => scanSegments arena m2 rest

/-- The raw-data indexes a given channel carries in one object list, in
order (arena-resolved); the per-channel trace of `update_data_indexes`
over that list. -/
def channelEntries (arena : List RawDataIndex) (objs : List SegmentObject)
    (id : Nat) : List RawDataIndex :=
  objs.filterMap (fun obj =>
    if obj.objectId = id then obj.rawDataIndex.map (arenaGet arena) else none)

/-- The raw-data indexes a given channel carries across all segments of
the file, in file order. -/
def dataEntries (arena : List RawDataIndex) (segObjLists : List (List SegmentObject))
    (id : Nat) : List RawDataIndex :=
  channelEntries arena segObjLists.flatten id

/-- One channel's cumulative index evolving through its raw-data-index
entries: created from the first entry, then updated (with the
element-type check) by each later one. -/
def foldEntries : Option ChannelDataIndex → List RawDataIndex →
    Except TdmsReadError (Option ChannelDataIndex)
  | st, [] => .ok st
  | none, e :: rest => foldEntries (some (ChannelDataIndex.fromSegmentIndex e)) rest
  | some c, e :: rest =>
    match c.updateWithSegmentIndex e with
    | .error err => .error err
    | .ok c2 => foldEntries (some c2) rest

/-- `Channel::len` from `lib.rs`: the cumulative value count, 0 for a
channel with no cumulative index. -/
def channelLen (m : ChannelDataIndexMap) (objectId : Nat) : Nat :=
  match m.get objectId with
  | some channelData => channelData.numberOfValues
  | none => 0

/-! ## Segments and per-segment read counts (`segment.rs`)

`TdmsSegment` carries the resolved object list, the absolute raw-data
and next-segment positions, the chunk byte width (`data_size`) and the
repetition count. -/

/-- `TdmsSegment` from `segment.rs` (the fields used by channel-data
reads; the ToC flags select the layout and byte order and are kept
abstract here as the contiguous little-endian case is the one the claims
evaluate). -/
structure TdmsSegment where
  objects : List SegmentObject
  dataPosition : Nat
  nextSegmentPosition : Nat
  dataSize : Nat
  repetitions : Nat
deriving DecidableEq, Repr

/-- Modelled from the spec: the part of `read_segment_metadata` that
computes the chunk byte width handed to `TdmsSegment::new` as
`data_size` is not in the provided sources (the provided
`tdms_reader.rs` predates the 6-argument `TdmsSegment::new` in
`segment.rs`).  Spec §4.6 step 6: the chunk byte width is the sum of
`raw_data_index.byte_size` across segment-objects that carry data. -/
def segmentChunkWidth (arena : List RawDataIndex) (objs : List SegmentObject) : Nat :=
  (objs.map (fun obj =>
    match obj.rawDataIndex with
    | some id => (arenaGet arena id).dataSize
    | none => 0)).sum

/-- Modelled from the spec: the repetition count handed to
`TdmsSegment::new` is not in the provided sources.  Spec §4.6 step 6:
repetitions is `(next_segment_position − raw_data_position) /
chunk_width`, floored, or 0 when the chunk width is 0. -/
def segmentRepetitions (chunkWidth rawDataPosition nextSegmentPosition : Nat) : Nat :=
  if chunkWidth = 0 then 0
  else (nextSegmentPosition - rawDataPosition) / chunkWidth

/-- Builds the segment record as `read_segment_metadata` does, with the
spec-modelled chunk width and repetition count. -/
def mkSegment (arena : List RawDataIndex) (objs : List SegmentObject)
    (rawDataPosition nextSegmentPosition : Nat) : TdmsSegment :=
  let width := segmentChunkWidth arena objs
  ⟨objs, rawDataPosition, nextSegmentPosition, width,
    segmentRepetitions width rawDataPosition nextSegmentPosition⟩

/-- The value count written (and returned) by
`TdmsSegment::read_contiguous_channel_data` in `segment.rs`: the loop
walks the segment objects; at the first data-carrying object whose id is
the requested channel it writes `number_of_values` values per
repetition, for every repetition, and returns
`repetitions * number_of_values`; 0 when the channel carries no data in
this segment. -/
def readContiguousCountLoop (arena : List RawDataIndex) (repetitions : Nat)
    (channelId : Nat) : List SegmentObject → Nat
  | [] => 0
  | obj :: rest =>
    match obj.rawDataIndex with
    | some rawDataIndexId =>
      if obj.objectId = channelId then
        repetitions * (arenaGet arena rawDataIndexId).numberOfValues
      else
        readContiguousCountLoop arena repetitions channelId rest
    | none => readContiguousCountLoop arena repetitions channelId rest

/-- Per-segment value count for a channel, as produced by
`TdmsSegment::read_channel_data` (contiguous layout). -/
def TdmsSegment.readChannelDataCount (seg : TdmsSegment)
    (arena : List RawDataIndex) (channelId : Nat) : Nat :=
  readContiguousCountLoop arena seg.repetitions channelId seg.objects

/-- `TdmsReader::read_channel_data` from `tdms_reader.rs`, counting the
values written: segments are visited in file order, and a segment
contributes when its object list carries the channel with data; the
running `offset` advances by the per-segment count. -/
def readChannelDataCount (arena : List RawDataIndex) (segments : List TdmsSegment)
    (channelId : Nat) : Nat :=
  segments.foldl (fun offset seg =>
    if seg.objects.any (fun o => o.objectId == channelId && o.rawDataIndex.isSome) then
      offset + seg.readChannelDataCount arena channelId
    else offset) 0

/-! ## `Channel::read_all_data` (`lib.rs`) -/

/-- `Channel::read_all_data` from `lib.rs`, abstracted over the
underlying typed segment reads: `cdi` is the channel's cumulative
channel-data index (absent when the channel never carried data),
`buffer` the caller's typed buffer, `bufferType` the buffer's element
kind (`T::native_type()`), and `doRead` stands for
`TdmsReader::read_channel_data`, which is invoked only when every check
passes.  The result carries the (possibly rewritten) buffer. -/
def readAllData {α : Type} (cdi : Option ChannelDataIndex) (buffer : List α)
    (bufferType : NativeTypeId)
    (doRead : List α → Except TdmsReadError (List α)) :
    Except TdmsReadError (List α) :=
  match cdi with
  | some channelDataIndex =>
    if buffer.length < channelDataIndex.numberOfValues then
      .error (.tdmsError "Buffer length needs to be at least the channel length")
    else
      match channelDataIndex.dataType.nativeType with
      | some expectedNativeType =>
        if expectedNativeType = bufferType then doRead buffer
        else .error (.tdmsError "Expected a buffer with the expected item type")
      | none => .error (.tdmsError "Reading data of this type is not supported")
  | none => .ok buffer

/-! ## Raw-data-index records and the index-header dispatch
(`tdms_reader.rs`) -/

/-- `read_raw_data_index` from `tdms_reader.rs`: u32 element-type tag,
u32 dimension, u64 element count; the dimension must be 1; the byte size
is `type_size * number_of_values` for fixed-size types, is read
explicitly from the wire for `String`, and any other size-less type is
unsupported. -/
def readRawDataIndex (o : ByteOrder) (s : ByteStream) :
    Except TdmsReadError (RawDataIndex × ByteStream) :=
  match s.readU32 o with
  | .error e => .error e
  | .ok (dataTypeRaw, s1) =>
    match TdsType.fromU32 dataTypeRaw with
    | .error e => .error e
    | .ok dataType =>
      match s1.readU32 o with
      | .error e => .error e
      | .ok (dimension, s2) =>
        match s2.readU64 o with
        | .error e => .error e
        | .ok (numberOfValues, s3) =>
          if dimension ≠ 1 then
            .error (.tdmsError "Dimension must be 1")
          else
            match dataType.size with
            | some typeSize => .ok (⟨numberOfValues, dataType, typeSize * numberOfValues⟩, s3)
            | none =>
              if dataType = .string then
                match s3.readU64 o with
                | .error e => .error e
                | .ok (dataSize, s4) => .ok (⟨numberOfValues, dataType, dataSize⟩, s4)
              else
                .error (.tdmsError "Unsupported data type")

/-- The per-object raw-data-index header dispatch inside
`TdmsReader::read_object_metadata`: `0xFFFFFFFF` gives a data-less
segment object; `0x00000000` reuses the most-recent cached index id and
is a hard error when the cache has none; the two scaler headers hit
`unimplemented!()` (a panic); any other value parses a raw-data-index
record, allocates it in the arena, updates the cache and attaches the
new id. -/
def dispatchRawDataIndex (o : ByteOrder) (objectId : Nat) (header : Nat)
    (arena : List RawDataIndex) (cache : ObjMap Nat) (s : ByteStream) :
    Except ReadFailure (SegmentObject × List RawDataIndex × ObjMap Nat × ByteStream) :=
  if header = 0xFFFFFFFF then
    .ok (SegmentObject.noData objectId, arena, cache, s)
  else if header = 0x00000000 then
    match cache.get objectId with
    | some rawDataIndexId =>
      .ok (SegmentObject.withData objectId rawDataIndexId, arena, cache, s)
    | none => .error (.err (.tdmsError "Object has no previous raw data index"))
  else if header = 0x00001269 then .error (.panicked "not implemented")
  else if header = 0x0000126A then .error (.panicked "not implemented")
  else
    match readRawDataIndex o s with
    | .error e => .error (.err e)
    | .ok (rawDataIndex, s2) =>
      let rawDataIndexId := arena.length
      .ok (SegmentObject.withData objectId rawDataIndexId,
        arena ++ [rawDataIndex], cache.set objectId rawDataIndexId, s2)

/-! ## Object-list merge (`ObjectMerger::merge_objects`,
`tdms_reader.rs`) -/

/-- The first loop of `merge_objects`: record, for each position of the
previous segment's list, `object id → index` (a later duplicate id
overwrites an earlier one, as `ObjectMap::set` does). -/
def buildObjectIndexes (objs : List SegmentObject) : ObjMap Nat :=
  objs.enum.foldl (fun m p => m.set p.2.objectId p.1) ObjMap.empty

/-- `ObjectMerger::merge_objects`: with no previous segment the new list
is used as is; otherwise start from the previous list and, for each new
object, replace in place at the recorded index of its id, or append. -/
def mergeObjects (previousSegmentObjects : Option (List SegmentObject))
    (newObjects : List SegmentObject) : List SegmentObject :=
  match previousSegmentObjects with
  | some prevObjs =>
    let objectIndexes := buildObjectIndexes prevObjs
    newObjects.foldl (fun merged obj =>
      match objectIndexes.get obj.objectId with
      | some i => merged.set i obj
      | none => merged ++ [obj]) prevObjs
  | none => newObjects

/-- The merge as worded by the claim: each newly declared segment-object
replaces the entry with the same object id at its existing position in
the list, and objects with new ids are appended in declaration order. -/
def mergeObjectsSpec (prevObjs newObjects : List SegmentObject) : List SegmentObject :=
  newObjects.foldl (fun merged obj =>
    if (prevObjs.map SegmentObject.objectId).contains obj.objectId then
      merged.set ((prevObjs.map SegmentObject.objectId).indexOf obj.objectId) obj
    else merged ++ [obj]) prevObjs

/-! ## Interleaved de-mux reader (`interleaved.rs`) -/

/-- `InterleavedReader` from `interleaved.rs`: a view of one channel's
lane within an in-memory interleaved chunk. -/
structure InterleavedReader where
  bytes : List Nat
  chunkWidth : Nat
  typeSize : Nat
  offset : Nat
  position : Nat
deriving DecidableEq, Repr

/-- `InterleavedReader::new`. -/
def InterleavedReader.mk0 (bytes : List Nat) (chunkWidth typeSize offset : Nat) :
    InterleavedReader :=
  ⟨bytes, chunkWidth, typeSize, offset, 0⟩

/-- The `total_bytes` computed inside `InterleavedReader::read`:
`self.type_size * self.bytes.len() / self.chunk_width`. -/
def InterleavedReader.totalBytes (r : InterleavedReader) : Nat :=
  r.typeSize * r.bytes.length / r.chunkWidth

/-- `InterleavedReader::read` with a destination buffer of length
`bufLen`: yields `min bufLen (total_bytes − position)` bytes, the `i`-th
taken from chunk position
`offset + ((position + i) / type_size) * chunk_width +
(position + i) % type_size`, and advances the cursor.  (The source
indexes the chunk slice directly, which panics when out of bounds; the
model totalizes with a default 0 that is unreachable under the bounds
hypotheses of the theorems below.) -/
def InterleavedReader.read (r : InterleavedReader) (bufLen : Nat) :
    List Nat × InterleavedReader :=
  let numBytesToRead := min bufLen (r.totalBytes - r.position)
  let out := (List.range numBytesToRead).map (fun i =>
    let p := i + r.position
    r.bytes.getD (r.offset + p / r.typeSize * r.chunkWidth + p % r.typeSize) 0)
  (out, ⟨r.bytes, r.chunkWidth, r.typeSize, r.offset, r.position + numBytesToRead⟩)

/-- A sequence of `read` calls with the given buffer lengths; returns
the concatenation of all bytes yielded. -/
def InterleavedReader.readSeq (r : InterleavedReader) : List Nat → List Nat
  | [] => []
  | n :: ns =>
    let (out, r2) := r.read n
    out ++ r2.readSeq ns

/-! ## Timestamps and the bulk timestamp read (`types.rs`) -/

/-- `Timestamp` from `timestamp.rs`: seconds since the 1904 epoch and
2⁻⁶⁴-second fractions. -/
structure Timestamp where
  seconds : Int
  secondFractions : Nat
deriving DecidableEq, Repr

/-- The loop body of `<Timestamp as NativeType>::read_values` in
`types.rs`: per value, under little-endian the fractional-seconds u64 is
read first and then the seconds i64; under big-endian the seconds i64
first and then the fractional-seconds u64; each decoded value is pushed
onto the target buffer. -/
def timestampReadValuesLoop (o : ByteOrder) (buf : List Timestamp)
    (s : ByteStream) : Nat → Except TdmsReadError (List Timestamp × ByteStream)
  | 0 => .ok (buf, s)
  | n + 1 =>
    match o with
    | .little =>
      match s.readU64 .little with
      | .error e => .error e
      | .ok (secondFractions, s2) =>
        match s2.readI64 .little with
        | .error e => .error e
        | .ok (seconds, s3) =>
          timestampReadValuesLoop .little (buf ++ [⟨seconds, secondFractions⟩]) s3 n
    | .big =>
      match s.readI64 .big with
      | .error e => .error e
      | .ok (seconds, s2) =>
        match s2.readU64 .big with
        | .error e => .error e
        | .ok (secondFractions, s3) =>
          timestampReadValuesLoop .big (buf ++ [⟨seconds, secondFractions⟩]) s3 n

/-- `<Timestamp as NativeType>::read_values` from `types.rs`: the target
buffer is first resized from its original length by `num_values` slots
filled with `Timestamp::new(0, 0)`, and the loop then pushes each
decoded value onto the buffer. -/
def timestampReadValues (o : ByteOrder) (targetBuffer : List Timestamp)
    (s : ByteStream) (numValues : Nat) :
    Except TdmsReadError (List Timestamp × ByteStream) :=
  timestampReadValuesLoop o (targetBuffer ++ List.replicate numValues ⟨0, 0⟩) s numValues

/-! ## Object paths (`object_path.rs`) -/

/-- `ObjectPath` from `object_path.rs`.  Names are modelled as lists of
characters. -/
inductive ObjectPath where
  | root
  | group (groupName : List Char)
  | channel (groupName channelName : List Char)
deriving DecidableEq, Repr

/-- `str::replace("'", "''")`, the escaping used by `path_from_group` /
`path_from_channel`. -/
def escapeQuote (s : List Char) : List Char :=
  s.foldr (fun ch acc => (if ch = qc then [qc, qc] else [ch]) ++ acc) []

/-- `path_from_group`: `/'<escaped>'`. -/
def pathFromGroup (groupName : List Char) : List Char :=
  ['/', qc] ++ escapeQuote groupName ++ [qc]

/-- `path_from_channel`: `/'<escaped>'/'<escaped>'`. -/
def pathFromChannel (groupName channelName : List Char) : List Char :=
  ['/', qc] ++ escapeQuote groupName ++ [qc] ++ ['/', qc] ++ escapeQuote channelName ++ [qc]

/-- The canonical path of a sequence of quoted components (used to state
the more-than-two-components case). -/
def canonicalPath (names : List (List Char)) : List Char :=
  (names.map (fun n => ['/', qc] ++ escapeQuote n ++ [qc])).flatten

/-- `str::replace("''", "'")`, applied to each collected component slice
at the end of `ObjectPath::parse`: a left-to-right scan collapsing each
non-overlapping quote pair. -/
def replaceEsc : List Char → List Char
  | [] => []
  | [ch] => [ch]
  | ch1 :: ch2 :: rest =>
    if ch1 = qc ∧ ch2 = qc then qc :: replaceEsc rest
    else ch1 :: replaceEsc (ch2 :: rest)

/-- Parser state of `ObjectPath::parse`: expecting the beginning of a
component, or inside a component accumulating its raw slice. -/
inductive PState where
  | start
  | comp (acc : List Char)

/-- The character loop of `ObjectPath::parse` (the two-token state
machine over `current_char`/`next_char`, re-expressed as a scan over the
remaining input): collects the raw (still escaped) component slices. -/
def parseLoop : List Char → PState → List (List Char) →
    Except TdmsReadError (List (List Char))
  | [], .start, comps => .ok comps
  | [ch], .start, comps =>
    if ch = '/' then .ok comps
    else .error (.tdmsError "Invalid object path")
  | ch :: ch2 :: rest, .start, comps =>
    if ch = '/' ∧ ch2 = qc then parseLoop rest (.comp []) comps
    else .error (.tdmsError "Invalid object path")
  | [], .comp _, _ => .error (.tdmsError "Invalid object path")
  | ch :: rest, .comp acc, comps =>
    if ch = qc then
      match rest with
      | ch2 :: rest2 =>
        if ch2 = qc then parseLoop rest2 (.comp (acc ++ [qc, qc])) comps
        else parseLoop (ch2 :: rest2) .start (comps ++ [acc])
      | [] => parseLoop [] .start (comps ++ [acc])
    else parseLoop rest (.comp (acc ++ [ch])) comps

/-- `ObjectPath::parse`: zero components is the root, one a group, two a
channel, more an error; each component has its escaped quotes
collapsed. -/
def ObjectPath.parse (input : List Char) : Except TdmsReadError ObjectPath :=
  match parseLoop input .start [] with
  | .error e => .error e
  | .ok comps =>
    match comps with
    | [] => .ok .root
    | [g] => .ok (.group (replaceEsc g))
    | [g, c] => .ok (.channel (replaceEsc g) (replaceEsc c))
    | _ => .error (.tdmsError "Invalid object path with more than 2 components")

/-! # Theorems -/

/-! ## The segment-tag loop (claim C2) -/

theorem readTagLoop_eof (s : ByteStream) (acc : List Nat) (h : s.remaining = 0)
    (hacc : acc.length < 4) : readTagLoop s acc = none := by
  unfold readTagLoop
  rw [if_neg (by omega)]
  have hup : s.readUpTo (4 - acc.length) = ([], ⟨s.data, s.pos + 0⟩) := by
    simp [ByteStream.readUpTo, h]
  rw [hup]

theorem readTagLoop_short (s : ByteStream) (acc : List Nat) (h0 : 0 < s.remaining)
    (h : s.remaining + acc.length < 4) : readTagLoop s acc = none := by
  have hlen : (s.data.drop s.pos).length = s.remaining := by
    simp [ByteStream.remaining]
  obtain ⟨b, bs, hbs⟩ : ∃ b bs, s.data.drop s.pos = b :: bs := by
    cases hd : s.data.drop s.pos with
    | nil => rw [hd] at hlen; simp at hlen; omega
    | cons b bs => exact ⟨b, bs, rfl⟩
  have hbslen : bs.length + 1 = s.remaining := by
    rw [hbs] at hlen; simpa using hlen
  unfold readTagLoop
  rw [if_neg (by omega)]
  have hup : s.readUpTo (4 - acc.length) = (b :: bs, ⟨s.data, s.pos + s.remaining⟩) := by
    have hk : min (4 - acc.length) s.remaining = s.remaining := by omega
    simp only [ByteStream.readUpTo, hk, hbs]
    rw [List.take_of_length_le (by rw [← hbs]; omega)]
  rw [hup]
  apply readTagLoop_eof
  · simp only [ByteStream.remaining] at *
    omega
  · simp only [List.length_append, List.length_cons]
    omega

theorem readTagLoop_full (s : ByteStream) (h : 4 ≤ s.remaining) :
    readTagLoop s [] = some ((s.data.drop s.pos).take 4, ⟨s.data, s.pos + 4⟩) := by
  have hlen : ((s.data.drop s.pos).take 4).length = 4 := by
    simp [ByteStream.remaining] at *
    omega
  obtain ⟨b, bs, hbs⟩ : ∃ b bs, (s.data.drop s.pos).take 4 = b :: bs := by
    cases hd : (s.data.drop s.pos).take 4 with
    | nil => rw [hd] at hlen; simp at hlen
    | cons b bs => exact ⟨b, bs, rfl⟩
  unfold readTagLoop
  rw [if_neg (by simp)]
  have hup : s.readUpTo (4 - ([] : List Nat).length) = (b :: bs, ⟨s.data, s.pos + 4⟩) := by
    have hk : min (4 - ([] : List Nat).length) s.remaining = 4 := by
      simp
      omega
    simp only [ByteStream.readUpTo, hk, hbs]
  rw [hup]
  unfold readTagLoop
  rw [if_pos (by rw [List.nil_append, ← hbs, hlen])]
  rw [List.nil_append, hbs]

/-- C2 counterexample: the claim says a short read of 1 to 3 bytes at a
candidate-segment boundary is a fatal `TdmsError`; on a source holding
exactly the two bytes `54 44`, `read_segment`'s tag phase instead
returns `Ok(None)` (the loop's second `read` yields 0 bytes), so the
scan terminates cleanly. -/
theorem c2_counterexample_short_tag_is_clean_eof :
    readSegmentHeader ⟨[0x54, 0x44], 0⟩ = .ok none := by
  unfold readSegmentHeader
  rw [readTagLoop_short ⟨[0x54, 0x44], 0⟩ [] (by decide) (by decide)]

/-- C2 (amended): reading the 4 tag bytes at the start of a candidate
segment terminates the scan cleanly whenever fewer than 4 bytes remain —
0 bytes, and also a short read of 1 to 3 bytes (any `read` returning 0
bytes before the tag is complete yields `Ok(None)`); when 4 bytes are
read, a tag equal to `54 44 53 6d` continues the segment parse and any
other tag is a fatal `TdmsError`. -/
theorem c2_amended_segment_tag_outcomes (s : ByteStream) :
    (s.remaining < 4 → readSegmentHeader s = .ok none) ∧
    (4 ≤ s.remaining → (s.data.drop s.pos).take 4 = [0x54, 0x44, 0x53, 0x6d] →
      readSegmentHeader s = .ok (some ⟨s.data, s.pos + 4⟩)) ∧
    (4 ≤ s.remaining → (s.data.drop s.pos).take 4 ≠ [0x54, 0x44, 0x53, 0x6d] →
      readSegmentHeader s = .error (.tdmsError "Invalid segment header")) := by
  refine ⟨fun h => ?_, fun h htag => ?_, fun h htag => ?_⟩
  · unfold readSegmentHeader
    rcases Nat.eq_zero_or_pos s.remaining with h0 | h0
    · rw [readTagLoop_eof s [] h0 (by simp)]
    · rw [readTagLoop_short s [] h0 (by simpa using h)]
  · unfold readSegmentHeader
    rw [readTagLoop_full s h, htag]
    rfl
  · unfold readSegmentHeader
    rw [readTagLoop_full s h]
    simp [htag]

/-- Witness for the amended C2 theorem at concrete inputs: a two-byte
source ends the scan cleanly, a well-tagged source continues, and a
wrongly tagged source fails. -/
theorem c2_amended_segment_tag_outcomes_witness :
    readSegmentHeader ⟨[0x54, 0x44], 0⟩ = .ok none ∧
    readSegmentHeader ⟨[0x54, 0x44, 0x53, 0x6d, 9], 0⟩ =
      .ok (some ⟨[0x54, 0x44, 0x53, 0x6d, 9], 4⟩) ∧
    readSegmentHeader ⟨[1, 2, 3, 4], 0⟩ = .error (.tdmsError "Invalid segment header") :=
  ⟨(c2_amended_segment_tag_outcomes ⟨[0x54, 0x44], 0⟩).1 (by decide),
   (c2_amended_segment_tag_outcomes ⟨[0x54, 0x44, 0x53, 0x6d, 9], 0⟩).2.1 (by decide) (by decide),
   (c2_amended_segment_tag_outcomes ⟨[1, 2, 3, 4], 0⟩).2.2 (by decide) (by decide)⟩

/-! ## `Channel::read_all_data` (claims C3 and C10) -/

/-- C3: for a channel that has a cumulative channel-data index,
`read_all_data` fails with a format error when the buffer is shorter
than the cumulative value count (independently of the underlying reads,
which are never invoked), fails with a format error when the buffer's
element kind is not the native kind of the recorded element type
(including the case of an element type with no native kind), and
otherwise hands the buffer to the typed read. -/
theorem c3_read_all_data_checks {α : Type} (c : ChannelDataIndex) (buffer : List α)
    (bufferType : NativeTypeId) (doRead : List α → Except TdmsReadError (List α)) :
    (buffer.length < c.numberOfValues →
      readAllData (some c) buffer bufferType doRead =
        .error (.tdmsError "Buffer length needs to be at least the channel length")) ∧
    (c.numberOfValues ≤ buffer.length → c.dataType.nativeType ≠ some bufferType →
      ∃ msg, readAllData (some c) buffer bufferType doRead = .error (.tdmsError msg)) ∧
    (c.numberOfValues ≤ buffer.length → c.dataType.nativeType = some bufferType →
      readAllData (some c) buffer bufferType doRead = doRead buffer) := by
  refine ⟨fun h1 => ?_, fun h1 h2 => ?_, fun h1 h2 => ?_⟩
  · simp [readAllData, h1]
  · rw [readAllData.eq_def]
    simp only
    rw [if_neg (by omega)]
    cases hnt : c.dataType.nativeType with
    | none => exact ⟨_, rfl⟩
    | some nt =>
      have hne : nt ≠ bufferType := fun he => h2 (by rw [hnt, he])
      refine ⟨"Expected a buffer with the expected item type", ?_⟩
      simp [hne]
  · rw [readAllData.eq_def]
    simp only
    rw [if_neg (by omega), h2]
    simp

/-- Witness for C3 at concrete inputs: a too-short buffer fails, a
mistyped buffer fails, and a long-enough correctly typed buffer goes
through to the typed read. -/
theorem c3_read_all_data_checks_witness :
    readAllData (some ⟨2, .i32⟩) ([0] : List Nat) .i32 Except.ok =
      .error (.tdmsError "Buffer length needs to be at least the channel length") ∧
    (∃ msg, readAllData (some ⟨1, .i32⟩) ([0] : List Nat) .f64 Except.ok =
      .error (.tdmsError msg)) ∧
    readAllData (some ⟨1, .i32⟩) ([0] : List Nat) .i32 Except.ok = .ok [0] :=
  ⟨(c3_read_all_data_checks ⟨2, .i32⟩ [0] .i32 Except.ok).1 (by decide),
   (c3_read_all_data_checks ⟨1, .i32⟩ [0] .f64 Except.ok).2.1 (by decide) (by decide),
   (c3_read_all_data_checks ⟨1, .i32⟩ [0] .i32 Except.ok).2.2 (by decide) (by decide)⟩

/-- C10: for a channel object with no cumulative channel-data index,
`read_all_data` succeeds for every buffer element kind and every buffer
length, skipping the length and element-kind checks and never invoking
the underlying reads, and the buffer is returned unchanged. -/
theorem c10_read_all_data_no_index {α : Type} (buffer : List α)
    (bufferType : NativeTypeId) (doRead : List α → Except TdmsReadError (List α)) :
    readAllData none buffer bufferType doRead = .ok buffer := rfl

/-! ## The bulk timestamp read (claim C8) -/

/-- C8 evaluated at a failing input: with an empty target buffer and
`num_values = 1`, `<Timestamp as NativeType>::read_values` consumes the
expected 16 bytes and decodes the fields in the claimed byte-order-
dependent order, but the resize-then-push slip leaves the buffer with
two entries — a zero-filled slot followed by the decoded value — instead
of the single decoded value the claim (and the spec's bulk-fill
contract) states. -/
theorem c8_timestamp_read_values_doubles_buffer :
    timestampReadValues .little [] ⟨[5, 0, 0, 0, 0, 0, 0, 0, 7, 0, 0, 0, 0, 0, 0, 0], 0⟩ 1 =
      .ok ([⟨0, 0⟩, ⟨7, 5⟩], ⟨[5, 0, 0, 0, 0, 0, 0, 0, 7, 0, 0, 0, 0, 0, 0, 0], 16⟩) ∧
    timestampReadValues .big [] ⟨[0, 0, 0, 0, 0, 0, 0, 7, 0, 0, 0, 0, 0, 0, 0, 5], 0⟩ 1 =
      .ok ([⟨0, 0⟩, ⟨7, 5⟩], ⟨[0, 0, 0, 0, 0, 0, 0, 7, 0, 0, 0, 0, 0, 0, 0, 5], 16⟩) ∧
    [(⟨0, 0⟩ : Timestamp), ⟨7, 5⟩].length ≠ ([] : List Timestamp).length + 1 := by
  refine ⟨by decide, by decide, by decide⟩

/-! ## Cumulative count versus values read (claim C1) -/

/-- C1 evaluated at a failing input: one segment declaring a single
i32 channel with a per-segment count of 1 and a raw-data region of 8
bytes (chunk width 4, hence 2 repetitions).  The cumulative
channel-data index records `length() = 1` (the per-segment count is
added without the repetition factor), while the per-segment data read
writes `repetitions × count = 2` values, so `length()` is neither the
sum of per-segment count × repetitions nor the number of values
`read_all_data` writes. -/
theorem c1_cumulative_count_ignores_repetitions :
    (∃ m, scanSegments [⟨1, .i32, 4⟩] ObjMap.empty [[SegmentObject.withData 0 0]] = .ok m ∧
      channelLen m 0 = 1) ∧
    (mkSegment [⟨1, .i32, 4⟩] [SegmentObject.withData 0 0] 28 36).repetitions = 2 ∧
    readChannelDataCount [⟨1, .i32, 4⟩]
      [mkSegment [⟨1, .i32, 4⟩] [SegmentObject.withData 0 0] 28 36] 0 = 2 :=
  ⟨⟨ObjMap.empty.set 0 ⟨1, .i32⟩, rfl, rfl⟩, rfl, rfl⟩

/-! ## The raw-data-index header dispatch (claim C5) -/

theorem readExact_ok (s : ByteStream) (n : Nat) (h : n ≤ s.remaining) :
    s.readExact n = .ok ((s.data.drop s.pos).take n, ⟨s.data, s.pos + n⟩) := by
  simp [ByteStream.readExact, h]

theorem readExact_err (s : ByteStream) (n : Nat) (h : s.remaining < n) :
    s.readExact n = .error .ioError := by
  simp [ByteStream.readExact, Nat.not_le.2 h]

theorem readU32_ok (s : ByteStream) (o : ByteOrder) (h : 4 ≤ s.remaining) :
    s.readU32 o = .ok (wordFromBytes o ((s.data.drop s.pos).take 4), ⟨s.data, s.pos + 4⟩) := by
  rw [ByteStream.readU32, readExact_ok s 4 h]

theorem readU64_ok (s : ByteStream) (o : ByteOrder) (h : 8 ≤ s.remaining) :
    s.readU64 o = .ok (wordFromBytes o ((s.data.drop s.pos).take 8), ⟨s.data, s.pos + 8⟩) := by
  rw [ByteStream.readU64, readExact_ok s 8 h]

theorem readU64_err (s : ByteStream) (o : ByteOrder) (h : s.remaining < 8) :
    s.readU64 o = .error .ioError := by
  rw [ByteStream.readU64, readExact_err s 8 h]

theorem remaining_after (data : List Nat) (pos k : Nat) :
    (⟨data, pos + k⟩ : ByteStream).remaining = (⟨data, pos⟩ : ByteStream).remaining - k := by
  simp [ByteStream.remaining]
  omega

/-- In `read_raw_data_index`, a wire dimension field different from 1
cannot yield a raw-data index: whatever the element-type tag and the
rest of the stream hold, the read fails. -/
theorem readRawDataIndex_dim_err (o : ByteOrder) (s : ByteStream) (h8 : 8 ≤ s.remaining)
    (hdim : wordFromBytes o ((s.data.drop (s.pos + 4)).take 4) ≠ 1) :
    ∃ e, readRawDataIndex o s = .error e := by
  have hu1 : s.readU32 o =
      .ok (wordFromBytes o ((s.data.drop s.pos).take 4), ⟨s.data, s.pos + 4⟩) :=
    readU32_ok s o (by omega)
  have h2 : (⟨s.data, s.pos + 4⟩ : ByteStream).remaining = s.remaining - 4 := by
    simpa using remaining_after s.data s.pos 4
  have hu2 : (⟨s.data, s.pos + 4⟩ : ByteStream).readU32 o =
      .ok (wordFromBytes o ((s.data.drop (s.pos + 4)).take 4), ⟨s.data, s.pos + 4 + 4⟩) := by
    have := readU32_ok ⟨s.data, s.pos + 4⟩ o (by omega)
    simpa using this
  cases htag : TdsType.fromU32 (wordFromBytes o ((s.data.drop s.pos).take 4)) with
  | error e =>
    refine ⟨e, ?_⟩
    rw [readRawDataIndex]
    simp only [hu1, htag]
  | ok dataType =>
    rcases Nat.lt_or_ge ((⟨s.data, s.pos + 4 + 4⟩ : ByteStream).remaining) 8 with h3 | h3
    · refine ⟨.ioError, ?_⟩
      rw [readRawDataIndex]
      simp only [hu1, htag, hu2, readU64_err ⟨s.data, s.pos + 4 + 4⟩ o h3]
    · refine ⟨.tdmsError "Dimension must be 1", ?_⟩
      rw [readRawDataIndex]
      simp only [hu1, htag, hu2, readU64_ok ⟨s.data, s.pos + 4 + 4⟩ o h3]
      rw [if_pos hdim]

/-- C5: the u32 raw-data-index header of an object-metadata record is
dispatched as follows.  `0xFFFFFFFF` yields a data-less segment object,
leaving the arena, the cache and the stream untouched.  `0x00000000`
reuses the object's most-recent cached raw-data-index id, and is a hard
error when the cache holds none for that object.  `0x00001269` and
`0x0000126A` make the read fail (an `unimplemented!` panic in the
source).  Any other value parses a raw-data-index record — failing
whenever the record's dimension field is not 1 — and on success
allocates the record in the arena, updates the cache to the new id and
attaches it to the segment object. -/
theorem c5_raw_data_index_dispatch (o : ByteOrder) (objectId header : Nat)
    (arena : List RawDataIndex) (cache : ObjMap Nat) (s : ByteStream) :
    (header = 0xFFFFFFFF →
      dispatchRawDataIndex o objectId header arena cache s =
        .ok (SegmentObject.noData objectId, arena, cache, s)) ∧
    (header = 0x00000000 → ∀ cachedId, cache.get objectId = some cachedId →
      dispatchRawDataIndex o objectId header arena cache s =
        .ok (SegmentObject.withData objectId cachedId, arena, cache, s)) ∧
    (header = 0x00000000 → cache.get objectId = none →
      dispatchRawDataIndex o objectId header arena cache s =
        .error (.err (.tdmsError "Object has no previous raw data index"))) ∧
    ((header = 0x00001269 ∨ header = 0x0000126A) →
      ∃ msg, dispatchRawDataIndex o objectId header arena cache s = .error (.panicked msg)) ∧
    (header ≠ 0xFFFFFFFF → header ≠ 0x00000000 → header ≠ 0x00001269 → header ≠ 0x0000126A →
      (∀ ri s2, readRawDataIndex o s = .ok (ri, s2) →
        dispatchRawDataIndex o objectId header arena cache s =
          .ok (SegmentObject.withData objectId arena.length, arena ++ [ri],
            cache.set objectId arena.length, s2)) ∧
      (∀ e, readRawDataIndex o s = .error e →
        dispatchRawDataIndex o objectId header arena cache s = .error (.err e)) ∧
      (8 ≤ s.remaining → wordFromBytes o ((s.data.drop (s.pos + 4)).take 4) ≠ 1 →
        ∃ f, dispatchRawDataIndex o objectId header arena cache s = .error f)) := by
  refine ⟨fun h => ?_, fun h cachedId hc => ?_, fun h hc => ?_, fun h => ?_,
    fun h1 h2 h3 h4 => ?_⟩
  · subst h
    rw [dispatchRawDataIndex, if_pos rfl]
  · subst h
    rw [dispatchRawDataIndex, if_neg (by norm_num), if_pos rfl, hc]
  · subst h
    rw [dispatchRawDataIndex, if_neg (by norm_num), if_pos rfl, hc]
  · rcases h with h | h <;> subst h
    · rw [dispatchRawDataIndex, if_neg (by norm_num), if_neg (by norm_num), if_pos rfl]
      exact ⟨_, rfl⟩
    · rw [dispatchRawDataIndex, if_neg (by norm_num), if_neg (by norm_num),
        if_neg (by norm_num), if_pos rfl]
      exact ⟨_, rfl⟩
  · have hbase : dispatchRawDataIndex o objectId header arena cache s =
        match readRawDataIndex o s with
        | .error e => .error (.err e)
        | .ok (rawDataIndex, s2) =>
          .ok (SegmentObject.withData objectId arena.length,
            arena ++ [rawDataIndex], cache.set objectId arena.length, s2) := by
      rw [dispatchRawDataIndex, if_neg h1, if_neg h2, if_neg h3, if_neg h4]
    refine ⟨fun ri s2 hok => ?_, fun e herr => ?_, fun h8 hdim => ?_⟩
    · rw [hbase, hok]
    · rw [hbase, herr]
    · obtain ⟨e, he⟩ := readRawDataIndex_dim_err o s h8 hdim
      rw [hbase, he]
      exact ⟨.err e, rfl⟩

/-- Witness for C5 at concrete inputs, one per dispatch arm: no-data
header; cache hit and cache miss for the matches-previous header; a
scaler header; a full raw-data-index parse (i32, dimension 1, count 3);
and a dimension-2 record that fails. -/
theorem c5_raw_data_index_dispatch_witness :
    dispatchRawDataIndex .little 7 0xFFFFFFFF [] ObjMap.empty ⟨[], 0⟩ =
      .ok (SegmentObject.noData 7, [], ObjMap.empty, ⟨[], 0⟩) ∧
    dispatchRawDataIndex .little 7 0 [⟨1, .i32, 4⟩] (ObjMap.empty.set 7 0) ⟨[], 0⟩ =
      .ok (SegmentObject.withData 7 0, [⟨1, .i32, 4⟩], ObjMap.empty.set 7 0, ⟨[], 0⟩) ∧
    dispatchRawDataIndex .little 7 0 [] ObjMap.empty ⟨[], 0⟩ =
      .error (.err (.tdmsError "Object has no previous raw data index")) ∧
    (∃ msg, dispatchRawDataIndex .little 7 0x00001269 [] ObjMap.empty ⟨[], 0⟩ =
      .error (.panicked msg)) ∧
    dispatchRawDataIndex .little 7 20 [] ObjMap.empty
        ⟨[3, 0, 0, 0, 1, 0, 0, 0, 3, 0, 0, 0, 0, 0, 0, 0], 0⟩ =
      .ok (SegmentObject.withData 7 0, [] ++ [⟨3, .i32, 12⟩], ObjMap.empty.set 7 0,
        ⟨[3, 0, 0, 0, 1, 0, 0, 0, 3, 0, 0, 0, 0, 0, 0, 0], 16⟩) ∧
    (∃ f, dispatchRawDataIndex .little 7 20 [] ObjMap.empty
        ⟨[3, 0, 0, 0, 2, 0, 0, 0, 3, 0, 0, 0, 0, 0, 0, 0], 0⟩ = .error f) :=
  ⟨(c5_raw_data_index_dispatch .little 7 0xFFFFFFFF [] ObjMap.empty ⟨[], 0⟩).1 rfl,
   (c5_raw_data_index_dispatch .little 7 0 [⟨1, .i32, 4⟩] (ObjMap.empty.set 7 0) ⟨[], 0⟩).2.1
     rfl 0 rfl,
   (c5_raw_data_index_dispatch .little 7 0 [] ObjMap.empty ⟨[], 0⟩).2.2.1 rfl rfl,
   (c5_raw_data_index_dispatch .little 7 0x00001269 [] ObjMap.empty ⟨[], 0⟩).2.2.2.1
     (Or.inl rfl),
   ((c5_raw_data_index_dispatch .little 7 20 [] ObjMap.empty
       ⟨[3, 0, 0, 0, 1, 0, 0, 0, 3, 0, 0, 0, 0, 0, 0, 0], 0⟩).2.2.2.2
     (by decide) (by decide) (by decide) (by decide)).1 ⟨3, .i32, 12⟩
     ⟨[3, 0, 0, 0, 1, 0, 0, 0, 3, 0, 0, 0, 0, 0, 0, 0], 16⟩ (by decide),
   ((c5_raw_data_index_dispatch .little 7 20 [] ObjMap.empty
       ⟨[3, 0, 0, 0, 2, 0, 0, 0, 3, 0, 0, 0, 0, 0, 0, 0], 0⟩).2.2.2.2
     (by decide) (by decide) (by decide) (by decide)).2.2 (by decide) (by decide)⟩

/-! ## The interleaved de-mux reader (claim C7) -/

theorem interleaved_read_step (bytes : List Nat) (w t k p n : Nat) :
    (⟨bytes, w, t, k, p⟩ : InterleavedReader).read n =
      ((List.range' p (min n (t * bytes.length / w - p))).map
        (fun i => bytes.getD (k + i / t * w + i % t) 0),
       ⟨bytes, w, t, k, p + min n (t * bytes.length / w - p)⟩) := by
  unfold InterleavedReader.read InterleavedReader.totalBytes
  simp only
  congr 1
  rw [List.range'_eq_map_range, List.map_map]
  apply List.map_congr_left
  intro i _
  simp only [Function.comp]
  rw [Nat.add_comm i p]

theorem interleaved_readSeq_eq (bytes : List Nat) (w t k : Nat) (ns : List Nat) (p : Nat) :
    (⟨bytes, w, t, k, p⟩ : InterleavedReader).readSeq ns =
      (List.range' p (min ns.sum (t * bytes.length / w - p))).map
        (fun i => bytes.getD (k + i / t * w + i % t) 0) := by
  induction ns generalizing p with
  | nil => simp [InterleavedReader.readSeq]
  | cons n ns ih =>
    rw [InterleavedReader.readSeq]
    simp only [interleaved_read_step]
    rw [ih]
    rw [← List.map_append]
    congr 1
    have happ := List.range'_append p (min n (t * bytes.length / w - p))
      (min ns.sum (t * bytes.length / w - (p + min n (t * bytes.length / w - p)))) 1
    simp only [Nat.one_mul] at happ
    rw [happ]
    congr 1
    rw [List.sum_cons]
    generalize t * bytes.length / w = T
    omega

/-- C7: for an interleaved chunk of `samples` per-sample strides of
`chunk_width` bytes, element size `t` with `0 < t`, `0 < chunk_width`
and channel offset `k` with `k + t ≤ chunk_width`: the reader reports
`t × (chunk bytes / chunk_width)` total bytes; every sequence of reads —
partial reads straddling element boundaries included — yields, in
order, exactly the bytes at chunk positions
`k + (i / t) × chunk_width + i % t` for `i = 0, 1, 2, …`, capped at the
total; those positions all lie inside the chunk; and a read once the
cursor has reached the total yields no bytes. -/
theorem c7_interleaved_reader (bytes : List Nat) (w t k samples : Nat)
    (ht : 0 < t) (hw : 0 < w) (hkt : k + t ≤ w) (hlen : bytes.length = samples * w) :
    (InterleavedReader.mk0 bytes w t k).totalBytes = t * (bytes.length / w) ∧
    (∀ ns : List Nat,
      (InterleavedReader.mk0 bytes w t k).readSeq ns =
        (List.range (min ns.sum (t * (bytes.length / w)))).map
          (fun i => bytes.getD (k + i / t * w + i % t) 0)) ∧
    (∀ i, i < t * (bytes.length / w) → k + i / t * w + i % t < bytes.length) ∧
    (∀ p n, (InterleavedReader.mk0 bytes w t k).totalBytes ≤ p →
      ((⟨bytes, w, t, k, p⟩ : InterleavedReader).read n).1 = []) := by
  have hdiv : bytes.length / w = samples := by
    rw [hlen]
    exact Nat.mul_div_cancel samples hw
  have hT : t * bytes.length / w = t * (bytes.length / w) := by
    rw [hlen, Nat.mul_div_cancel samples hw, ← Nat.mul_assoc]
    exact Nat.mul_div_cancel _ hw
  refine ⟨?_, fun ns => ?_, fun i hi => ?_, fun p n hp => ?_⟩
  · exact hT
  · show (⟨bytes, w, t, k, 0⟩ : InterleavedReader).readSeq ns = _
    rw [interleaved_readSeq_eq, Nat.sub_zero, hT, List.range_eq_range']
  · rw [hdiv] at hi
    have hq : i / t < samples := by
      rw [Nat.div_lt_iff_lt_mul ht, Nat.mul_comm samples t]
      exact hi
    have hr : i % t < t := Nat.mod_lt _ ht
    have hqw : (i / t + 1) * w ≤ samples * w := Nat.mul_le_mul_right w hq
    have hstep : (i / t + 1) * w = i / t * w + w := by ring
    omega
  · have hp2 : t * bytes.length / w ≤ p := hp
    rw [interleaved_read_step]
    simp only
    rw [Nat.sub_eq_zero_of_le hp2, Nat.min_zero, List.range'_zero, List.map_nil]

/-- Witness for C7 on the repository's own test vector (16 bytes,
stride 4, element size 2, offset 2, two partial reads of 5 and 3 bytes
straddling an element boundary). -/
theorem c7_interleaved_reader_witness :
    (0 : Nat) < 2 ∧ (0 : Nat) < 4 ∧ (2 : Nat) + 2 ≤ 4 ∧
    (InterleavedReader.mk0 [0, 1, 2, 3, 4, 5, 6, 7, 8, 9, 10, 11, 12, 13, 14, 15]
        4 2 2).readSeq [5, 3] =
      (List.range (min ([5, 3] : List Nat).sum
        (2 * (([0, 1, 2, 3, 4, 5, 6, 7, 8, 9, 10, 11, 12, 13, 14, 15] : List Nat).length / 4)))).map
        (fun i =>
          ([0, 1, 2, 3, 4, 5, 6, 7, 8, 9, 10, 11, 12, 13, 14, 15] : List Nat).getD
            (2 + i / 2 * 4 + i % 2) 0) ∧
    (List.range (min ([5, 3] : List Nat).sum
        (2 * (([0, 1, 2, 3, 4, 5, 6, 7, 8, 9, 10, 11, 12, 13, 14, 15] : List Nat).length / 4)))).map
        (fun i =>
          ([0, 1, 2, 3, 4, 5, 6, 7, 8, 9, 10, 11, 12, 13, 14, 15] : List Nat).getD
            (2 + i / 2 * 4 + i % 2) 0) = [2, 3, 6, 7, 10, 11, 14, 15] :=
  ⟨by decide, by decide, by decide,
   (c7_interleaved_reader [0, 1, 2, 3, 4, 5, 6, 7, 8, 9, 10, 11, 12, 13, 14, 15]
      4 2 2 4 (by decide) (by decide) (by decide) (by decide)).2.1 [5, 3],
   by decide⟩

/-! ## Object-path parsing and canonicalization (claim C9) -/

theorem escapeQuote_nil : escapeQuote [] = [] := rfl

theorem escapeQuote_cons (c : Char) (g : List Char) :
    escapeQuote (c :: g) = (if c = qc then [qc, qc] else [c]) ++ escapeQuote g := rfl

/-- Collapsing the escaping undoes it: `replace("''", "'")` after
`replace("'", "''")` is the identity. -/
theorem replaceEsc_escapeQuote (g : List Char) : replaceEsc (escapeQuote g) = g := by
  induction g with
  | nil => rfl
  | cons c g ih =>
    by_cases hc : c = qc
    · subst hc
      rw [escapeQuote_cons, if_pos rfl]
      simp only [List.cons_append, List.nil_append]
      rw [show replaceEsc (qc :: qc :: escapeQuote g) = qc :: replaceEsc (escapeQuote g) by
        simp [replaceEsc]]
      rw [ih]
    · rw [escapeQuote_cons, if_neg hc]
      simp only [List.cons_append, List.nil_append]
      cases hesc : escapeQuote g with
      | nil =>
        rw [hesc] at ih
        simp [replaceEsc, ← ih]
      | cons d rest =>
        rw [show replaceEsc (c :: d :: rest) = c :: replaceEsc (d :: rest) by
          simp [replaceEsc, hc]]
        rw [← hesc, ih]

theorem parseLoop_start_step (tail : List Char) (comps : List (List Char)) :
    parseLoop ('/' :: qc :: tail) .start comps = parseLoop tail (.comp []) comps := by
  rw [parseLoop.eq_def]
  simp

theorem parseLoop_comp_esc_step (tail : List Char) (acc : List Char)
    (comps : List (List Char)) :
    parseLoop (qc :: qc :: tail) (.comp acc) comps =
      parseLoop tail (.comp (acc ++ [qc, qc])) comps := by
  rw [parseLoop.eq_def]
  simp

theorem parseLoop_comp_close_cons (d : Char) (tail acc : List Char)
    (comps : List (List Char)) (hd : d ≠ qc) :
    parseLoop (qc :: d :: tail) (.comp acc) comps =
      parseLoop (d :: tail) .start (comps ++ [acc]) := by
  rw [parseLoop.eq_def]
  simp [hd]

theorem parseLoop_comp_close_nil (acc : List Char) (comps : List (List Char)) :
    parseLoop [qc] (.comp acc) comps = .ok (comps ++ [acc]) := by
  rw [parseLoop.eq_def]
  simp [parseLoop]

theorem parseLoop_comp_char (c : Char) (tail acc : List Char)
    (comps : List (List Char)) (hc : c ≠ qc) :
    parseLoop (c :: tail) (.comp acc) comps =
      parseLoop tail (.comp (acc ++ [c])) comps := by
  rw [parseLoop.eq_def]
  simp [hc]

/-- Scanning an escaped component: the machine, inside a component,
consumes the escaped name up to its closing quote (which must not be
doubled, i.e. the remainder must not begin with a quote) and emits the
accumulated raw slice. -/
theorem parseLoop_comp_escaped (g : List Char) : ∀ (acc : List Char)
    (comps : List (List Char)) (rest : List Char),
    (∀ rest2, rest ≠ qc :: rest2) →
    parseLoop (escapeQuote g ++ qc :: rest) (.comp acc) comps =
      parseLoop rest .start (comps ++ [acc ++ escapeQuote g]) := by
  induction g with
  | nil =>
    intro acc comps rest h
    cases rest with
    | nil =>
      rw [show escapeQuote [] ++ qc :: ([] : List Char) = [qc] from rfl]
      rw [parseLoop_comp_close_nil]
      rw [show parseLoop [] PState.start (comps ++ [acc ++ escapeQuote []]) =
        .ok (comps ++ [acc ++ escapeQuote []]) from rfl]
      simp [escapeQuote_nil]
    | cons d rest2 =>
      have hd : d ≠ qc := fun he => h rest2 (by rw [he])
      rw [show escapeQuote [] ++ qc :: d :: rest2 = qc :: d :: rest2 from rfl]
      rw [parseLoop_comp_close_cons d rest2 acc comps hd]
      simp [escapeQuote_nil]
  | cons c g ih =>
    intro acc comps rest h
    by_cases hc : c = qc
    · subst hc
      rw [escapeQuote_cons, if_pos rfl]
      simp only [List.cons_append, List.nil_append, List.append_assoc]
      rw [parseLoop_comp_esc_step, ih (acc ++ [qc, qc]) comps rest h]
      simp
    · rw [escapeQuote_cons, if_neg hc]
      simp only [List.cons_append, List.nil_append]
      rw [parseLoop_comp_char c _ acc comps hc, ih (acc ++ [c]) comps rest h]
      simp

/-- The head of a canonical path is never a quote (it is empty or starts
with `/`). -/
theorem canonicalPath_no_quote_head (names : List (List Char)) :
    ∀ rest2, canonicalPath names ≠ qc :: rest2 := by
  cases names with
  | nil => intro rest2 h; simp [canonicalPath] at h
  | cons n names =>
    intro rest2 h
    rw [show canonicalPath (n :: names) =
      '/' :: qc :: (escapeQuote n ++ [qc] ++ canonicalPath names) by
        simp [canonicalPath]] at h
    have : '/' = qc := by injection h
    exact absurd this (by decide)

/-- The machine collects exactly the escaped names of a canonical
path. -/
theorem parseLoop_canonical (names : List (List Char)) : ∀ comps : List (List Char),
    parseLoop (canonicalPath names) .start comps = .ok (comps ++ names.map escapeQuote) := by
  induction names with
  | nil => intro comps; simp [canonicalPath, parseLoop]
  | cons n names ih =>
    intro comps
    rw [show canonicalPath (n :: names) =
      '/' :: qc :: (escapeQuote n ++ qc :: canonicalPath names) by
        simp [canonicalPath]]
    rw [parseLoop_start_step]
    rw [parseLoop_comp_escaped n [] comps (canonicalPath names)
      (canonicalPath_no_quote_head names)]
    rw [ih]
    simp

/-- C9: parsing the canonical path produced by `path_from_group`
returns the original group name, parsing the one produced by
`path_from_channel` returns the original group and channel names (with
`'` escaped as `''` on the wire and collapsed back by the parser), and
parsing a canonical path of more than two quoted components is a format
error. -/
theorem c9_path_parse_canonicalize :
    (∀ g : List Char, ObjectPath.parse (pathFromGroup g) = .ok (.group g)) ∧
    (∀ g c : List Char, ObjectPath.parse (pathFromChannel g c) = .ok (.channel g c)) ∧
    (∀ names : List (List Char), 2 < names.length →
      ObjectPath.parse (canonicalPath names) =
        .error (.tdmsError "Invalid object path with more than 2 components")) := by
  have hgroup : ∀ g : List Char,
      parseLoop (pathFromGroup g) .start [] = .ok [escapeQuote g] := by
    intro g
    have : pathFromGroup g = canonicalPath [g] := by simp [pathFromGroup, canonicalPath]
    rw [this, parseLoop_canonical [g] []]
    simp
  have hchannel : ∀ g c : List Char,
      parseLoop (pathFromChannel g c) .start [] = .ok [escapeQuote g, escapeQuote c] := by
    intro g c
    have : pathFromChannel g c = canonicalPath [g, c] := by
      simp [pathFromChannel, canonicalPath]
    rw [this, parseLoop_canonical [g, c] []]
    simp
  refine ⟨fun g => ?_, fun g c => ?_, fun names hlen => ?_⟩
  · rw [ObjectPath.parse, hgroup g]
    simp [replaceEsc_escapeQuote]
  · rw [ObjectPath.parse, hchannel g c]
    simp [replaceEsc_escapeQuote]
  · rw [ObjectPath.parse, parseLoop_canonical names []]
    simp only [List.nil_append]
    rcases names with _ | ⟨a, _ | ⟨b, _ | ⟨c, rest⟩⟩⟩ <;> simp at hlen ⊢

/-- Witness for C9 at concrete names containing quotes and slashes, and
at a three-component canonical path. -/
theorem c9_path_parse_canonicalize_witness :
    ObjectPath.parse (pathFromGroup ("Group'Name".toList)) =
      .ok (.group ("Group'Name".toList)) ∧
    ObjectPath.parse (pathFromChannel ("G''".toList) ("C/x".toList)) =
      .ok (.channel ("G''".toList) ("C/x".toList)) ∧
    (2 : Nat) < ([("a".toList), ("b".toList), ("c".toList)] : List (List Char)).length ∧
    ObjectPath.parse (canonicalPath [("a".toList), ("b".toList), ("c".toList)]) =
      .error (.tdmsError "Invalid object path with more than 2 components") :=
  ⟨c9_path_parse_canonicalize.1 ("Group'Name".toList),
   c9_path_parse_canonicalize.2.1 ("G''".toList) ("C/x".toList),
   by decide,
   c9_path_parse_canonicalize.2.2 [("a".toList), ("b".toList), ("c".toList)] (by decide)⟩

/-! ## The object-list merge (claim C6) -/

theorem set_eq_self_of_getElem? {α : Type} (l : List α) (i : Nat) (a : α)
    (h : l[i]? = some a) : l.set i a = l := by
  have hlt : i < l.length := by
    by_contra hge
    rw [List.getElem?_eq_none (by omega)] at h
    exact Option.noConfusion h
  apply List.ext_getElem?
  intro j
  rw [List.getElem?_set]
  split
  · next he => subst he; simp [hlt, ← h]
  · rfl

theorem foldl_enumFrom_not_mem (objs : List SegmentObject) :
    ∀ (n : Nat) (m : ObjMap Nat) (id : Nat), id ∉ objs.map SegmentObject.objectId →
      ((List.enumFrom n objs).foldl (fun m p => m.set p.2.objectId p.1) m) id = m id := by
  induction objs with
  | nil => intro n m id _; rfl
  | cons o objs ih =>
    intro n m id h
    simp only [List.map_cons, List.mem_cons, not_or] at h
    rw [List.enumFrom_cons, List.foldl_cons]
    rw [ih (n + 1) _ id h.2]
    show ObjMap.set m o.objectId n id = m id
    unfold ObjMap.set
    rw [if_neg h.1]

theorem foldl_enumFrom_mem (objs : List SegmentObject) :
    ∀ (n : Nat) (m : ObjMap Nat) (id : Nat), id ∈ objs.map SegmentObject.objectId →
      ∃ j, j < objs.length ∧ (objs.map SegmentObject.objectId)[j]? = some id ∧
        ((List.enumFrom n objs).foldl (fun m p => m.set p.2.objectId p.1) m) id =
          some (n + j) := by
  induction objs with
  | nil => intro n m id h; simp at h
  | cons o objs ih =>
    intro n m id h
    rw [List.enumFrom_cons, List.foldl_cons]
    by_cases hmem : id ∈ objs.map SegmentObject.objectId
    · obtain ⟨j, hj, hval, hfold⟩ := ih (n + 1) (ObjMap.set m o.objectId n) id hmem
      refine ⟨j + 1, by simp; omega, by simpa using hval, ?_⟩
      rw [hfold]
      congr 1
      omega
    · have hid : id = o.objectId := by
        simp only [List.map_cons, List.mem_cons] at h
        tauto
      refine ⟨0, by simp, by simp [hid], ?_⟩
      rw [foldl_enumFrom_not_mem objs (n + 1) _ id hmem]
      show ObjMap.set m o.objectId n id = some (n + 0)
      unfold ObjMap.set
      rw [if_pos hid]
      simp

theorem foldl_enumFrom_nodup (objs : List SegmentObject) :
    ∀ (n : Nat) (m : ObjMap Nat) (id : Nat), (objs.map SegmentObject.objectId).Nodup →
      id ∈ objs.map SegmentObject.objectId →
      ((List.enumFrom n objs).foldl (fun m p => m.set p.2.objectId p.1) m) id =
        some (n + (objs.map SegmentObject.objectId).indexOf id) := by
  induction objs with
  | nil => intro n m id _ h; simp at h
  | cons o objs ih =>
    intro n m id hnd h
    rw [List.enumFrom_cons, List.foldl_cons]
    simp only [List.map_cons, List.nodup_cons] at hnd
    by_cases hid : id = o.objectId
    · rw [foldl_enumFrom_not_mem objs (n + 1) _ id (by rw [hid]; exact hnd.1)]
      show ObjMap.set m o.objectId n id = _
      unfold ObjMap.set
      rw [if_pos hid, List.map_cons, hid, List.indexOf_cons_self]
      simp
    · have hmem : id ∈ objs.map SegmentObject.objectId := by
        simp only [List.map_cons, List.mem_cons] at h
        tauto
      rw [ih (n + 1) _ id hnd.2 hmem, List.map_cons,
        List.indexOf_cons_ne _ (fun he => hid he.symm)]
      congr 1
      omega

theorem buildObjectIndexes_eq (objs : List SegmentObject) :
    buildObjectIndexes objs =
      (List.enumFrom 0 objs).foldl (fun m p => m.set p.2.objectId p.1) ObjMap.empty := rfl

theorem buildObjectIndexes_some (objs : List SegmentObject) (id i : Nat)
    (h : buildObjectIndexes objs id = some i) :
    i < objs.length ∧ (objs.map SegmentObject.objectId)[i]? = some id := by
  by_cases hmem : id ∈ objs.map SegmentObject.objectId
  · obtain ⟨j, hj, hval, hfold⟩ := foldl_enumFrom_mem objs 0 ObjMap.empty id hmem
    rw [buildObjectIndexes_eq] at h
    rw [hfold] at h
    obtain rfl : i = j := by
      injection h with h
      omega
    exact ⟨hj, hval⟩
  · rw [buildObjectIndexes_eq, foldl_enumFrom_not_mem objs 0 ObjMap.empty id hmem] at h
    exact Option.noConfusion h

theorem buildObjectIndexes_eq_none_iff (objs : List SegmentObject) (id : Nat) :
    buildObjectIndexes objs id = none ↔ id ∉ objs.map SegmentObject.objectId := by
  constructor
  · intro h hmem
    obtain ⟨j, _, _, hfold⟩ := foldl_enumFrom_mem objs 0 ObjMap.empty id hmem
    rw [buildObjectIndexes_eq, hfold] at h
    exact Option.noConfusion h
  · intro hmem
    rw [buildObjectIndexes_eq, foldl_enumFrom_not_mem objs 0 ObjMap.empty id hmem]
    rfl

theorem mergeObjects_eq_foldl (prevObjs news : List SegmentObject) :
    mergeObjects (some prevObjs) news =
      news.foldl (fun merged obj =>
        match buildObjectIndexes prevObjs obj.objectId with
        | some i => merged.set i obj
        | none => merged ++ [obj]) prevObjs := rfl

theorem merge_fold_props (prevObjs : List SegmentObject) :
    ∀ (news acc : List SegmentObject),
      prevObjs.length ≤ acc.length →
      (acc.take prevObjs.length).map SegmentObject.objectId =
        prevObjs.map SegmentObject.objectId →
      prevObjs.length ≤ (news.foldl (fun merged obj =>
          match buildObjectIndexes prevObjs obj.objectId with
          | some i => merged.set i obj
          | none => merged ++ [obj]) acc).length ∧
      ((news.foldl (fun merged obj =>
          match buildObjectIndexes prevObjs obj.objectId with
          | some i => merged.set i obj
          | none => merged ++ [obj]) acc).take prevObjs.length).map SegmentObject.objectId =
        prevObjs.map SegmentObject.objectId ∧
      (news.foldl (fun merged obj =>
          match buildObjectIndexes prevObjs obj.objectId with
          | some i => merged.set i obj
          | none => merged ++ [obj]) acc).drop prevObjs.length =
        acc.drop prevObjs.length ++
          news.filter
            (fun o => !((prevObjs.map SegmentObject.objectId).contains o.objectId)) := by
  intro news
  induction news with
  | nil =>
    intro acc hlen htake
    refine ⟨hlen, htake, by simp⟩
  | cons obj news ih =>
    intro acc hlen htake
    rw [List.foldl_cons]
    cases hbi : buildObjectIndexes prevObjs obj.objectId with
    | some i =>
      obtain ⟨hi, hval⟩ := buildObjectIndexes_some prevObjs obj.objectId i hbi
      have hmem : obj.objectId ∈ prevObjs.map SegmentObject.objectId :=
        List.getElem?_mem hval
      have hcontains :
          (prevObjs.map SegmentObject.objectId).contains obj.objectId = true := by
        simpa using hmem
      have hlen2 : prevObjs.length ≤ (acc.set i obj).length := by
        rw [List.length_set]
        exact hlen
      have htake2 : ((acc.set i obj).take prevObjs.length).map SegmentObject.objectId =
          prevObjs.map SegmentObject.objectId := by
        rw [List.set_take, List.map_set, htake]
        exact set_eq_self_of_getElem? _ i obj.objectId hval
      obtain ⟨h1, h2, h3⟩ := ih (acc.set i obj) hlen2 htake2
      simp only [hbi]
      refine ⟨h1, h2, ?_⟩
      rw [h3, List.drop_set_of_lt _ _ hi, List.filter_cons]
      have hf : (!((prevObjs.map SegmentObject.objectId).contains obj.objectId)) = false := by
        rw [hcontains]
        rfl
      simp only [hf]
      simp
    | none =>
      have hmem : obj.objectId ∉ prevObjs.map SegmentObject.objectId :=
        (buildObjectIndexes_eq_none_iff prevObjs obj.objectId).1 hbi
      have hcontains :
          (prevObjs.map SegmentObject.objectId).contains obj.objectId = false := by
        simpa using hmem
      have hlen2 : prevObjs.length ≤ (acc ++ [obj]).length := by
        rw [List.length_append]
        omega
      have htake2 : ((acc ++ [obj]).take prevObjs.length).map SegmentObject.objectId =
          prevObjs.map SegmentObject.objectId := by
        rw [List.take_append_of_le_length hlen]
        exact htake
      obtain ⟨h1, h2, h3⟩ := ih (acc ++ [obj]) hlen2 htake2
      simp only [hbi]
      refine ⟨h1, h2, ?_⟩
      rw [h3, List.drop_append_of_le_length hlen, List.filter_cons]
      have hf : (!((prevObjs.map SegmentObject.objectId).contains obj.objectId)) = true := by
        rw [hcontains]
        rfl
      simp only [hf]
      simp

/-- C6: when a segment declares metadata without `NewObjectList` and a
previous segment exists, the merged object list equals the claim's
description whenever the previous list has one entry per object id
(each newly declared segment-object replaces the entry with the same
object id at its position in the previous list, objects with new ids
are appended in declaration order); and, unconditionally, the first
`|prev|` entries of the merged list carry exactly the previous list's
object ids in the same order (so every previous object id survives, in
the same relative order), while the entries past them are exactly the
newly declared objects whose ids are not in the previous list, in
declaration order. -/
theorem c6_merge_objects (prevObjs newObjects : List SegmentObject) :
    ((prevObjs.map SegmentObject.objectId).Nodup →
      mergeObjects (some prevObjs) newObjects = mergeObjectsSpec prevObjs newObjects) ∧
    ((mergeObjects (some prevObjs) newObjects).take prevObjs.length).map
        SegmentObject.objectId = prevObjs.map SegmentObject.objectId ∧
    (mergeObjects (some prevObjs) newObjects).drop prevObjs.length =
      newObjects.filter
        (fun o => !((prevObjs.map SegmentObject.objectId).contains o.objectId)) := by
  have hprops := merge_fold_props prevObjs newObjects prevObjs (le_refl _)
    (by rw [List.take_length])
  refine ⟨fun hnd => ?_, ?_, ?_⟩
  · rw [mergeObjects_eq_foldl, mergeObjectsSpec]
    apply List.foldl_ext
    intro merged obj _
    by_cases hmem : obj.objectId ∈ prevObjs.map SegmentObject.objectId
    · have hfold := foldl_enumFrom_nodup prevObjs 0 ObjMap.empty obj.objectId hnd hmem
      rw [buildObjectIndexes_eq]
      rw [hfold]
      have hcontains :
          (prevObjs.map SegmentObject.objectId).contains obj.objectId = true := by
        simpa using hmem
      rw [hcontains]
      simp
    · rw [(buildObjectIndexes_eq_none_iff prevObjs obj.objectId).2 hmem]
      have hcontains :
          (prevObjs.map SegmentObject.objectId).contains obj.objectId = false := by
        simpa using hmem
      rw [hcontains]
      simp
  · rw [mergeObjects_eq_foldl]
    exact hprops.2.1
  · rw [mergeObjects_eq_foldl]
    rw [hprops.2.2]
    simp

/-- Witness for C6 at a concrete merge: previous list `[1 (data 0),
2 (no data)]` with distinct ids, new declarations `[2 (data 1),
3 (data 2)]`: object 2 is replaced in place, object 3 appended. -/
theorem c6_merge_objects_witness :
    mergeObjects (some [⟨1, some 0⟩, ⟨2, none⟩]) [⟨2, some 1⟩, ⟨3, some 2⟩] =
      mergeObjectsSpec [⟨1, some 0⟩, ⟨2, none⟩] [⟨2, some 1⟩, ⟨3, some 2⟩] ∧
    ((mergeObjects (some [⟨1, some 0⟩, ⟨2, none⟩]) [⟨2, some 1⟩, ⟨3, some 2⟩]).take 2).map
        SegmentObject.objectId =
      ([⟨1, some 0⟩, ⟨2, none⟩] : List SegmentObject).map SegmentObject.objectId :=
  ⟨(c6_merge_objects [⟨1, some 0⟩, ⟨2, none⟩] [⟨2, some 1⟩, ⟨3, some 2⟩]).1 (by decide),
   (c6_merge_objects [⟨1, some 0⟩, ⟨2, none⟩] [⟨2, some 1⟩, ⟨3, some 2⟩]).2.1⟩

/-! ## The cumulative channel-data index freezes the element type
(claim C4) -/

theorem objMap_get_set_self {α : Type} (m : ObjMap α) (id : Nat) (v : α) :
    (m.set id v).get id = some v := by
  unfold ObjMap.set ObjMap.get
  simp

theorem objMap_get_set_ne {α : Type} (m : ObjMap α) (id j : Nat) (v : α) (h : j ≠ id) :
    (m.set id v).get j = m.get j := by
  unfold ObjMap.set ObjMap.get
  show (if j = id then some v else m j) = m j
  rw [if_neg h]

theorem updateWithSegmentIndex_error (c : ChannelDataIndex) (i : RawDataIndex)
    (e : TdmsReadError) (h : c.updateWithSegmentIndex i = .error e) :
    e = .tdmsError "Data type does not match existing data type" := by
  unfold ChannelDataIndex.updateWithSegmentIndex at h
  split at h
  · injection h with h
    exact h.symm
  · exact absurd h (by simp)

theorem updateWithSegmentIndex_ok (c : ChannelDataIndex) (i : RawDataIndex)
    (c2 : ChannelDataIndex) (h : c.updateWithSegmentIndex i = .ok c2) :
    i.dataType = c.dataType ∧ c2.dataType = c.dataType := by
  unfold ChannelDataIndex.updateWithSegmentIndex at h
  split at h
  · exact absurd h (by simp)
  · next hne =>
    rw [not_not] at hne
    injection h with h
    exact ⟨hne, by rw [← h]⟩

theorem updateDataIndexes_append (arena : List RawDataIndex)
    (l1 l2 : List SegmentObject) : ∀ m : ChannelDataIndexMap,
    updateDataIndexes arena m (l1 ++ l2) =
      match updateDataIndexes arena m l1 with
      | .error e => .error e
      | .ok m2 => updateDataIndexes arena m2 l2 := by
  induction l1 with
  | nil => intro m; rfl
  | cons obj l1 ih =>
    intro m
    rw [List.cons_append]
    cases hri : obj.rawDataIndex with
    | none =>
      simp only [updateDataIndexes, hri]
      exact ih m
    | some idxId =>
      cases hget : m.get obj.objectId with
      | some existing =>
        cases hupd : existing.updateWithSegmentIndex (arenaGet arena idxId) with
        | error e => simp only [updateDataIndexes, hri, hget, hupd]
        | ok upd =>
          simp only [updateDataIndexes, hri, hget, hupd]
          exact ih _
      | none =>
        simp only [updateDataIndexes, hri, hget]
        exact ih _

theorem scanSegments_eq_flatten (arena : List RawDataIndex) :
    ∀ (segObjLists : List (List SegmentObject)) (m : ChannelDataIndexMap),
    scanSegments arena m segObjLists = updateDataIndexes arena m segObjLists.flatten := by
  intro segObjLists
  induction segObjLists with
  | nil => intro m; rfl
  | cons objs rest ih =>
    intro m
    rw [List.flatten_cons, updateDataIndexes_append]
    simp only [scanSegments]
    cases h : updateDataIndexes arena m objs with
    | error e => rfl
    | ok m2 => exact ih m2

theorem updateDataIndexes_error_format (arena : List RawDataIndex) :
    ∀ (os : List SegmentObject) (m : ChannelDataIndexMap) (e : TdmsReadError),
    updateDataIndexes arena m os = .error e → ∃ msg, e = .tdmsError msg := by
  intro os
  induction os with
  | nil => intro m e h; exact absurd h (by simp [updateDataIndexes])
  | cons obj os ih =>
    intro m e h
    cases hri : obj.rawDataIndex with
    | none =>
      simp only [updateDataIndexes, hri] at h
      exact ih m e h
    | some idxId =>
      cases hget : m.get obj.objectId with
      | some existing =>
        cases hupd : existing.updateWithSegmentIndex (arenaGet arena idxId) with
        | error e2 =>
          simp only [updateDataIndexes, hri, hget, hupd] at h
          injection h with h
          exact ⟨"Data type does not match existing data type",
            by rw [← h]; exact updateWithSegmentIndex_error _ _ _ hupd⟩
        | ok upd =>
          simp only [updateDataIndexes, hri, hget, hupd] at h
          exact ih _ e h
      | none =>
        simp only [updateDataIndexes, hri, hget] at h
        exact ih _ e h

theorem updateDataIndexes_ok_proj (arena : List RawDataIndex) :
    ∀ (os : List SegmentObject) (m m' : ChannelDataIndexMap),
    updateDataIndexes arena m os = .ok m' → ∀ id,
    foldEntries (m.get id) (channelEntries arena os id) = .ok (m'.get id) := by
  intro os
  induction os with
  | nil =>
    intro m m' h id
    have hm : m = m' := by
      simp only [updateDataIndexes] at h
      injection h
    subst hm
    cases m.get id <;> rfl
  | cons obj os ih =>
    intro m m' h id
    cases hri : obj.rawDataIndex with
    | none =>
      simp only [updateDataIndexes, hri] at h
      have hent : channelEntries arena (obj :: os) id = channelEntries arena os id := by
        simp [channelEntries, List.filterMap_cons, hri]
      rw [hent]
      exact ih m m' h id
    | some idxId =>
      cases hget : m.get obj.objectId with
      | some existing =>
        cases hupd : existing.updateWithSegmentIndex (arenaGet arena idxId) with
        | error e =>
          simp only [updateDataIndexes, hri, hget, hupd] at h
          exact absurd h (by simp)
        | ok upd =>
          simp only [updateDataIndexes, hri, hget, hupd] at h
          by_cases hid : obj.objectId = id
          · subst hid
            have hent : channelEntries arena (obj :: os) obj.objectId =
                arenaGet arena idxId :: channelEntries arena os obj.objectId := by
              simp [channelEntries, List.filterMap_cons, hri]
            rw [hent, hget]
            simp only [foldEntries, hupd]
            have := ih _ m' h obj.objectId
            rw [objMap_get_set_self] at this
            exact this
          · have hent : channelEntries arena (obj :: os) id = channelEntries arena os id := by
              simp [channelEntries, List.filterMap_cons, hid]
            rw [hent]
            have := ih _ m' h id
            rw [objMap_get_set_ne _ _ _ _ (fun he => hid he.symm)] at this
            exact this
      | none =>
        simp only [updateDataIndexes, hri, hget] at h
        by_cases hid : obj.objectId = id
        · subst hid
          have hent : channelEntries arena (obj :: os) obj.objectId =
              arenaGet arena idxId :: channelEntries arena os obj.objectId := by
            simp [channelEntries, List.filterMap_cons, hri]
          rw [hent, hget]
          simp only [foldEntries]
          have := ih _ m' h obj.objectId
          rw [objMap_get_set_self] at this
          exact this
        · have hent : channelEntries arena (obj :: os) id = channelEntries arena os id := by
            simp [channelEntries, List.filterMap_cons, hid]
          rw [hent]
          have := ih _ m' h id
          rw [objMap_get_set_ne _ _ _ _ (fun he => hid he.symm)] at this
          exact this

theorem foldEntries_ok_some :
    ∀ (es : List RawDataIndex) (c : ChannelDataIndex) (r : Option ChannelDataIndex),
    foldEntries (some c) es = .ok r →
    ∃ c', r = some c' ∧ c'.dataType = c.dataType ∧ ∀ e ∈ es, e.dataType = c.dataType := by
  intro es
  induction es with
  | nil =>
    intro c r h
    simp only [foldEntries] at h
    injection h with h
    exact ⟨c, h.symm, rfl, by simp⟩
  | cons e es ih =>
    intro c r h
    cases hupd : c.updateWithSegmentIndex e with
    | error err =>
      simp only [foldEntries, hupd] at h
      exact absurd h (by simp)
    | ok c2 =>
      simp only [foldEntries, hupd] at h
      obtain ⟨hety, hc2ty⟩ := updateWithSegmentIndex_ok c e c2 hupd
      obtain ⟨c', hr, hty, hall⟩ := ih c2 r h
      refine ⟨c', hr, by rw [hty, hc2ty], ?_⟩
      intro e2 he2
      rcases List.mem_cons.1 he2 with rfl | he2
      · exact hety
      · rw [hall e2 he2, hc2ty]

theorem foldEntries_ok_none (es : List RawDataIndex) (r : Option ChannelDataIndex)
    (h : foldEntries none es = .ok r) :
    (es = [] ∧ r = none) ∨
    (∃ c' e0 rest, r = some c' ∧ es = e0 :: rest ∧ c'.dataType = e0.dataType ∧
      ∀ e ∈ es, e.dataType = c'.dataType) := by
  cases es with
  | nil =>
    simp only [foldEntries] at h
    injection h with h
    exact Or.inl ⟨rfl, h.symm⟩
  | cons e0 rest =>
    simp only [foldEntries] at h
    obtain ⟨c', hr, hty, hall⟩ := foldEntries_ok_some rest (ChannelDataIndex.fromSegmentIndex e0) r h
    refine Or.inr ⟨c', e0, rest, hr, rfl, hty, ?_⟩
    intro e he
    rcases List.mem_cons.1 he with rfl | he
    · exact hty.symm
    · rw [hall e he]
      exact hty.symm

/-- C4: if the metadata scan succeeds, the cumulative channel-data
index of every channel that carries data records exactly the element
type of the channel's first data-carrying entry, and every later entry
for that channel had that same element type; consequently, whenever two
data-carrying entries of a channel disagree on the element type, the
scan (and hence `open`) fails with a format error. -/
theorem c4_element_type_frozen (arena : List RawDataIndex)
    (segObjLists : List (List SegmentObject)) :
    (∀ m id c, scanSegments arena ObjMap.empty segObjLists = .ok m →
      m.get id = some c →
      ∃ e0 rest, dataEntries arena segObjLists id = e0 :: rest ∧
        c.dataType = e0.dataType ∧
        ∀ e ∈ dataEntries arena segObjLists id, e.dataType = c.dataType) ∧
    (∀ id e1 e2, e1 ∈ dataEntries arena segObjLists id →
      e2 ∈ dataEntries arena segObjLists id → e1.dataType ≠ e2.dataType →
      ∃ msg, scanSegments arena ObjMap.empty segObjLists =
        .error (.tdmsError msg)) := by
  constructor
  · intro m id c hscan hget
    rw [scanSegments_eq_flatten] at hscan
    have hproj := updateDataIndexes_ok_proj arena segObjLists.flatten ObjMap.empty m hscan id
    rw [show (ObjMap.empty : ChannelDataIndexMap).get id = none from rfl, hget] at hproj
    rcases foldEntries_ok_none _ _ hproj with ⟨_, hnone⟩ | ⟨c', e0, rest, hr, hes, hty, hall⟩
    · exact Option.noConfusion hnone
    · obtain rfl : c = c' := by injection hr
      exact ⟨e0, rest, hes, hty, hall⟩
  · intro id e1 e2 h1 h2 hne
    cases hscan : scanSegments arena ObjMap.empty segObjLists with
    | ok m =>
      exfalso
      rw [scanSegments_eq_flatten] at hscan
      have hproj := updateDataIndexes_ok_proj arena segObjLists.flatten ObjMap.empty m hscan id
      rw [show (ObjMap.empty : ChannelDataIndexMap).get id = none from rfl] at hproj
      rcases foldEntries_ok_none _ _ hproj with ⟨hes, _⟩ | ⟨c', e0, rest, _, hes, _, hall⟩
      · rw [show dataEntries arena segObjLists id =
          channelEntries arena segObjLists.flatten id from rfl, hes] at h1
        exact absurd h1 (by simp)
      · have he1 := hall e1 h1
        have he2 := hall e2 h2
        exact hne (by rw [he1, he2])
    | error e =>
      have herr : updateDataIndexes arena ObjMap.empty segObjLists.flatten = .error e := by
        rw [← scanSegments_eq_flatten]
        exact hscan
      obtain ⟨msg, rfl⟩ := updateDataIndexes_error_format arena segObjLists.flatten
        ObjMap.empty e herr
      exact ⟨msg, rfl⟩

/-- Witness for C4 at concrete inputs: a single i32 segment yields an
index frozen to i32; re-declaring the same channel as f64 in a second
segment makes the scan fail with a format error. -/
theorem c4_element_type_frozen_witness :
    (∃ e0 rest,
      dataEntries [⟨1, .i32, 4⟩, ⟨2, .doubleFloat, 16⟩] [[SegmentObject.withData 0 0]] 0 =
        e0 :: rest ∧
      (⟨1, TdsType.i32⟩ : ChannelDataIndex).dataType = e0.dataType ∧
      ∀ e ∈ dataEntries [⟨1, .i32, 4⟩, ⟨2, .doubleFloat, 16⟩] [[SegmentObject.withData 0 0]] 0,
        e.dataType = (⟨1, TdsType.i32⟩ : ChannelDataIndex).dataType) ∧
    (∃ msg, scanSegments [⟨1, .i32, 4⟩, ⟨2, .doubleFloat, 16⟩] ObjMap.empty
        [[SegmentObject.withData 0 0], [SegmentObject.withData 0 1]] =
      .error (.tdmsError msg)) :=
  ⟨(c4_element_type_frozen [⟨1, .i32, 4⟩, ⟨2, .doubleFloat, 16⟩]
      [[SegmentObject.withData 0 0]]).1
    (ObjMap.empty.set 0 ⟨1, .i32⟩) 0 ⟨1, .i32⟩ rfl rfl,
   (c4_element_type_frozen [⟨1, .i32, 4⟩, ⟨2, .doubleFloat, 16⟩]
      [[SegmentObject.withData 0 0], [SegmentObject.withData 0 1]]).2
    0 ⟨1, .i32, 4⟩ ⟨2, .doubleFloat, 16⟩ (by decide) (by decide) (by decide)⟩

end Rstdms
